import Mathlib

/-
Verification of the resilient GitHub API access layer of the MCP_CLOUD_HUCK
repository: the retry/rate-limit primitive `retry_github_request`
(src/mcp-server-1/tools/utils.py and src/mcp-server-6/tools/utils.py) and the
fan-out comparison tool `compare_repositories` with its per-target fetcher
`fetch_repository_data` (src/mcp-server-2/tools/comparison_tool.py).

The Python code is shallowly embedded: the sequence of upstream answers that
the HTTP client would produce for each attempt is passed in as data, `asyncio`
sleeps are recorded as a list of delays, `ctx.info` notifications are recorded
as a list of notices, and raised exceptions become explicit failure values.
-/

set_option maxHeartbeats 1000000

namespace GithubMcp

/-- Status codes that trigger a retry: `RETRYABLE_STATUS_CODES` in
mcp-server-1/tools/utils.py line 20 (same set in mcp-server-6). -/
def RETRYABLE_STATUS_CODES : List Nat := [429, 500, 502, 503, 504]

/-- Base backoff delay in seconds: `RETRY_DELAY_BASE = 1.0`. -/
def RETRY_DELAY_BASE : ℚ := 1

/-- Default attempt budget: `MAX_RETRIES = 3`. -/
def MAX_RETRIES : Nat := 3

/-- What the upstream produces for one attempt of `client.request`: either an
HTTP response carrying a status code and an optional `X-RateLimit-Remaining`
header value, or a network-level failure (`httpx.TimeoutException` or
`httpx.NetworkError`). -/
inductive UpstreamResult where
  | response (status : Nat) (remaining : Option Nat)
  | netError
deriving DecidableEq, Repr

/-- Terminal result of one logical `retry_github_request` call: a returned
response, a propagated `httpx.HTTPStatusError` carrying a status, a propagated
timeout/network error, or the synthesized
`httpx.HTTPStatusError("All retries exhausted", ...)` raised after the loop
when no exception was ever captured. -/
inductive CallOutcome where
  | success (status : Nat)
  | httpStatusError (status : Nat)
  | networkFailure
  | retriesExhausted
deriving DecidableEq, Repr

/-- Advisory notifications emitted through `ctx.info`. -/
inductive Notice where
  | lowQuota (remaining : Nat)
  | statusRetry (status : Nat) (attempt : Nat)
  | networkRetry (attempt : Nat)
deriving DecidableEq, Repr

/-- The two near-duplicate copies of `retry_github_request`:
`s1` is mcp-server-1/tools/utils.py (lines 210-301), `s6` is
mcp-server-6/tools/utils.py (lines 44-98). Their control flow is identical;
they differ only in the low-quota advisory: server 1 requires the
`X-RateLimit-Remaining` header to be present and uses threshold 100, server 6
reads an absent header as 0 and uses threshold 10. -/
inductive ServerVariant where
  | s1
  | s6
deriving DecidableEq, Repr

/-- The low-quota advisory emitted right after a response is received
(utils.py s1 lines 243-247, s6 lines 60-63). Purely observational. -/
def quotaNotices (v : ServerVariant) (ctx : Bool) (remaining : Option Nat) :
    List Notice :=
  match v with
  | ServerVariant.s1 =>
    match remaining with
    | some r => if r < 100 ∧ ctx then [Notice.lowQuota r] else []
    | none => []
  | ServerVariant.s6 =>
    if remaining.getD 0 < 10 ∧ ctx then [Notice.lowQuota (remaining.getD 0)] else []

/-- Trace of one logical `retry_github_request` call: how many HTTP requests
were issued, which backoff delays were slept (in order, in seconds), which
`ctx.info` notices were emitted, and the terminal outcome. -/
structure RetryTrace where
  requests : Nat
  delays : List ℚ
  notices : List Notice
  outcome : CallOutcome
deriving DecidableEq, Repr

/-- Shallow embedding of `retry_github_request` (utils.py s1 lines 235-301,
s6 lines 53-98). `results` lists what the upstream produces for each remaining
attempt, so at top level its length is the `max_retries` budget and `idx` is 0;
`results = []` is the `max_retries = 0` case where the `for` loop body never
runs and, with `last_exception` still `None`, the generic
"All retries exhausted" error is synthesized. Per attempt: a response first
yields the quota advisory; a retriable status with attempts remaining sleeps
`RETRY_DELAY_BASE * 2 ^ attempt` and continues; a retriable status on the last
attempt is raised by `raise_for_status` and re-raised by the
`except httpx.HTTPStatusError` handler; a 2xx response is returned; any other
status is raised by `raise_for_status` and re-raised (the handler's retry
branch requires a retriable status, false here). A timeout/network error
retries if attempts remain, else is re-raised. -/
def retry_github_request (v : ServerVariant) (ctx : Bool) (idx : Nat) :
    List UpstreamResult → RetryTrace
  | [] => ⟨0, [], [], CallOutcome.retriesExhausted⟩
  | UpstreamResult.netError :: rest =>
    if rest = [] then
      ⟨1, [], [], CallOutcome.networkFailure⟩
    else
      let t := retry_github_request v ctx (idx + 1) rest
      ⟨t.requests + 1, RETRY_DELAY_BASE * 2 ^ idx :: t.delays,
        (if ctx then [Notice.networkRetry idx] else []) ++ t.notices, t.outcome⟩
  | UpstreamResult.response s rem :: rest =>
    let qn := quotaNotices v ctx rem
    if s ∈ RETRYABLE_STATUS_CODES then
      if rest = [] then
        ⟨1, [], qn, CallOutcome.httpStatusError s⟩
      else
        let t := retry_github_request v ctx (idx + 1) rest
        ⟨t.requests + 1, RETRY_DELAY_BASE * 2 ^ idx :: t.delays,
          qn ++ (if ctx then [Notice.statusRetry s idx] else []) ++ t.notices,
          t.outcome⟩
    else if 200 ≤ s ∧ s < 300 then
      ⟨1, [], qn, CallOutcome.success s⟩
    else
      ⟨1, [], qn, CallOutcome.httpStatusError s⟩

/-- Empty string literal (used as a `getD` junk default below). -/
def emptyStr : String := ""

/-- One comparison target: an element of the `repositories` argument of
`compare_repositories`, holding the keys `owner` and `repo`. -/
structure Target where
  owner : String
  repo : String
deriving DecidableEq, Repr

/-- The fields of the `GET /repos/{owner}/{repo}` JSON payload that
`fetch_repository_data` reads (comparison_tool.py lines 107-121). `pushed_at`
is kept abstract as an optional timestamp. -/
structure RepoMetadata where
  open_issues_count : Int
  stargazers_count : Int
  forks_count : Int
  watchers_count : Int
  language : Option String
  archived : Bool
  disabled : Bool
  pushed_at : Option Int
deriving DecidableEq, Repr

/-- The per-repository metric bag built by `fetch_repository_data`
(comparison_tool.py lines 107-121). Dates are abstracted to integer day
counts. -/
structure RepoData where
  owner : String
  repo : String
  open_issues_count : Int
  open_prs_count : Int
  stars_count : Int
  forks_count : Int
  watchers_count : Int
  last_commit_date : Option Int
  last_commit_age_days : Option Int
  language : Option String
  is_archived : Bool
  is_disabled : Bool
  pushed_at : Option Int
deriving DecidableEq, Repr

/-- Result of one sub-call inside `fetch_repository_data`: the successful value
or a raised exception (any `Exception`, carrying its message). -/
inductive SubCall (α : Type) where
  | ok (val : α)
  | exn (msg : String)
deriving DecidableEq, Repr

/-- `calculate_days_ago` from tools/utils.py (lines 403-421 of mcp-server-1,
lines 187-195 of mcp-server-6): `None` stays `None`, otherwise the number of
days between the date and now. Dates are modeled at day granularity. -/
def calculate_days_ago (now : Int) : Option Int → Option Int
  | none => none
  | some d => some (now - d)

/-- Shallow embedding of `fetch_repository_data` (comparison_tool.py lines
39-121). The three sub-calls (repository metadata, open-PR count via the
search API, latest commit date) are passed in as `SubCall` values. A failure
of the metadata call propagates; the PR-search call is wrapped in
`try/except Exception` defaulting `open_prs_count` to 0; the commits call is
wrapped in `try/except Exception` defaulting `last_commit_date` to `None`
(an empty commit list or unparsable date also yields `None`, folded into the
`SubCall.ok none` case). -/
def fetch_repository_data (now : Int) (owner repo : String)
    (metaCall : SubCall RepoMetadata) (searchPrCall : SubCall Int)
    (commitsCall : SubCall (Option Int)) : Except String RepoData :=
  match metaCall with
  | SubCall.exn e => Except.error e
  | SubCall.ok md =>
    let open_prs_count : Int :=
      match searchPrCall with
      | SubCall.ok n => n
      | SubCall.exn _ => 0
    let last_commit_date : Option Int :=
      match commitsCall with
      | SubCall.ok d => d
      | SubCall.exn _ => none
    let last_commit_age_days := calculate_days_ago now last_commit_date
    Except.ok
      { owner := owner
        repo := repo
        open_issues_count := max 0 (md.open_issues_count - open_prs_count)
        open_prs_count := open_prs_count
        stars_count := md.stargazers_count
        forks_count := md.forks_count
        watchers_count := md.watchers_count
        last_commit_date := last_commit_date
        last_commit_age_days := last_commit_age_days
        language := md.language
        is_archived := md.archived
        is_disabled := md.disabled
        pushed_at := md.pushed_at }

/-- Outcome of one whole per-target task, as observed by
`asyncio.gather(*tasks, return_exceptions=True)`: a metric bag or a captured
exception message. -/
inductive FetchResult where
  | ok (d : RepoData)
  | err (msg : String)
deriving DecidableEq, Repr

/-- One entry of `repo_data_list` (comparison_tool.py lines 217-229): either a
metric bag or the failure marker dict holding `owner`, `repo` and `error`. -/
inductive Slot where
  | data (d : RepoData)
  | failed (owner repo error : String)
deriving DecidableEq, Repr

/-- The `owner/repo` key under which a successful target appears in the metric
dicts (`repo_key` in comparison_tool.py line 255). -/
def repoKeyOfData (d : RepoData) : String := d.owner ++ "/" ++ d.repo

/-- The loop of comparison_tool.py lines 217-229: each gathered result is
turned into a slot of `repo_data_list`, failures retained with their error
message rather than dropped. The lists are always the same length in the
source (`gather` preserves arity). -/
def buildRepoDataList : List Target → List FetchResult → List Slot
  | [], _ => []
  | _ :: _, [] => []
  | t :: ts, r :: rs =>
    (match r with
     | FetchResult.err e => Slot.failed t.owner t.repo e
     | FetchResult.ok d => Slot.data d) :: buildRepoDataList ts rs

/-- The default metric set (comparison_tool.py lines 240-247). -/
def defaultMetrics : List String :=
  ["open_issues", "open_prs", "stars", "forks", "watchers", "last_commit_age"]

/-- `metrics_to_compare = metrics or [...]` (line 240): Python `or` falls back
to the default list when `metrics` is `None` or an empty list (both falsy). -/
def metricsToCompare : Option (List String) → List String
  | none => defaultMetrics
  | some l => if l = [] then defaultMetrics else l

/-- Python's `x or dflt` on an optional integer: `None` and `0` are both falsy
in Python, so both fall back to the default. This models line 268,
`repo_data.get("last_commit_age_days") or 9999`. -/
def pythonOr (x : Option Int) (dflt : Int) : Int :=
  match x with
  | none => dflt
  | some v => if v = 0 then dflt else v

/-- The per-metric extraction of comparison_tool.py lines 257-268; an
unrecognized metric name assigns nothing. -/
def metricValue (metric : String) (d : RepoData) : Option Int :=
  if metric = "open_issues" then some d.open_issues_count
  else if metric = "open_prs" then some d.open_prs_count
  else if metric = "stars" then some d.stars_count
  else if metric = "forks" then some d.forks_count
  else if metric = "watchers" then some d.watchers_count
  else if metric = "last_commit_age" then some (pythonOr d.last_commit_age_days 9999)
  else none

/-- Python dict assignment `m[k] = v` on an insertion-ordered dict represented
as an association list: replace in place if the key exists, else append. -/
def dictInsert : List (String × Int) → String → Int → List (String × Int)
  | [], k, v => [(k, v)]
  | (k', v') :: rest, k, v =>
    if k' = k then (k, v) :: rest else (k', v') :: dictInsert rest k v

/-- The inner loop of comparison_tool.py lines 250-268: walk `repo_data_list`
in order, skip slots carrying an `error`, and insert the metric value of each
successful slot under its `owner/repo` key. -/
def buildMetricMapAux (metric : String) :
    List (String × Int) → List Slot → List (String × Int)
  | acc, [] => acc
  | acc, Slot.failed _ _ _ :: rest => buildMetricMapAux metric acc rest
  | acc, Slot.data d :: rest =>
    match metricValue metric d with
    | none => buildMetricMapAux metric acc rest
    | some v => buildMetricMapAux metric (dictInsert acc (repoKeyOfData d) v) rest

/-- `comparison_metrics[metric]` built from an empty dict (line 250). -/
def buildMetricMap (metric : String) (slots : List Slot) : List (String × Int) :=
  buildMetricMapAux metric [] slots

/-- The outer loop of lines 249-268: one insertion-ordered dict per requested
metric name. -/
def buildComparisonMetrics (names : List String) (slots : List Slot) :
    List (String × List (String × Int)) :=
  names.map (fun n => (n, buildMetricMap n slots))

/-- Key lookup in the insertion-ordered `comparison_metrics` dict
(`"last_commit_age" in comparison_metrics` / `comparison_metrics[...]`). -/
def lookupMetric (name : String) :
    List (String × List (String × Int)) → Option (List (String × Int))
  | [] => none
  | (n, m) :: rest => if n = name then some m else lookupMetric name rest

/-- Python's builtin `min` over a list of ints: raises `ValueError` on an empty
sequence, otherwise folds `min` from the left. -/
def pyMin : List Int → Except String Int
  | [] => Except.error ("min() arg is an empty sequence")
  | a :: l => Except.ok (l.foldl min a)

/-- Python's builtin `max` over a list of ints. -/
def pyMax : List Int → Except String Int
  | [] => Except.error ("max() arg is an empty sequence")
  | a :: l => Except.ok (l.foldl max a)

/-- The comprehension `[repo for repo, x in m.items() if x == v][0]` guarded by
`if m else None`: first key of the dict whose value equals `v`. -/
def firstWith (m : List (String × Int)) (v : Int) : Option String :=
  match m.filter (fun p => p.2 == v) with
  | [] => none
  | p :: _ => some p.1

/-- The `summary` dict of comparison_tool.py lines 271-298. `none` stands for
the key being absent (its metric was not requested) or set to Python `None`. -/
structure ComparisonSummary where
  most_active : Option String := none
  most_popular : Option String := none
  most_forked : Option String := none
deriving DecidableEq, Repr

/-- Lines 274-280: if `"last_commit_age"` is a requested metric, take
`min(...)` of the dict's values (raising `ValueError` on an empty dict — the
eager `min_age = min(...)` runs before the `if dict else None` guard) and pick
the first key attaining it. -/
def summaryMostActive (cm : List (String × List (String × Int))) :
    Except String (Option String) :=
  match lookupMetric "last_commit_age" cm with
  | none => Except.ok none
  | some m =>
    match pyMin (m.map (fun p => p.2)) with
    | Except.error e => Except.error e
    | Except.ok v => Except.ok (if m = [] then none else firstWith m v)

/-- Lines 283-289: `most_popular` from the maximum of the `stars` dict. -/
def summaryMostPopular (cm : List (String × List (String × Int))) :
    Except String (Option String) :=
  match lookupMetric "stars" cm with
  | none => Except.ok none
  | some m =>
    match pyMax (m.map (fun p => p.2)) with
    | Except.error e => Except.error e
    | Except.ok v => Except.ok (if m = [] then none else firstWith m v)

/-- Lines 292-298: `most_forked` from the maximum of the `forks` dict. -/
def summaryMostForked (cm : List (String × List (String × Int))) :
    Except String (Option String) :=
  match lookupMetric "forks" cm with
  | none => Except.ok none
  | some m =>
    match pyMax (m.map (fun p => p.2)) with
    | Except.error e => Except.error e
    | Except.ok v => Except.ok (if m = [] then none else firstWith m v)

/-- Lines 271-298 in order: `most_active`, then `most_popular`, then
`most_forked`; the first raised `ValueError` aborts the operation. -/
def buildSummary (cm : List (String × List (String × Int))) :
    Except String ComparisonSummary :=
  match summaryMostActive cm with
  | Except.error e => Except.error e
  | Except.ok a =>
    match summaryMostPopular cm with
    | Except.error e => Except.error e
    | Except.ok p =>
      match summaryMostForked cm with
      | Except.error e => Except.error e
      | Except.ok f => Except.ok ⟨a, p, f⟩

/-- The target-count validation of comparison_tool.py lines 187-190. The
raised `ValueError` is caught at line 397 and surfaced as an invalid-params
`McpError` (code -32602). In the source this check runs before the HTTP client
is even created, so no network call is attempted. -/
def validateTargetCount (reps : List Target) : Except String Unit :=
  if reps.length < 2 then
    Except.error ("Необходимо указать минимум 2 репозитория для сравнения")
  else if reps.length > 5 then
    Except.error ("Максимум 5 репозиториев для сравнения")
  else Except.ok ()

/-- The structured content returned on success (comparison_tool.py lines
305-318 and 381-389): the verbatim echo of the input `repositories` list, the
success-only `metrics` dicts and the `summary` rankings. The internal
error-marked `repo_data_list` (lines 217-229) is consumed for metric building
and then discarded — failed targets' recorded errors are only emitted through
`ctx.error` and never reach this returned value. `comparison_date`
(wall clock) and the text rendering / transport wrapping are out of scope per
the specification. -/
structure CompareOutput where
  repositories : List Target
  metrics : List (String × List (String × Int))
  summary : ComparisonSummary
deriving DecidableEq, Repr

/-- Every string occurring anywhere in the returned structured content: the
echoed targets' owners and repos, the metric names, the metric dict keys and
the ranking values. Observation function used to check whether a failed
target's recorded error message reaches the returned aggregate. -/
def outputStrings (o : CompareOutput) : List String :=
  o.repositories.map (fun t => t.owner)
    ++ o.repositories.map (fun t => t.repo)
    ++ o.metrics.map (fun p => p.1)
    ++ (o.metrics.map (fun p => p.2.map (fun q => q.1))).flatten
    ++ o.summary.most_active.toList
    ++ o.summary.most_popular.toList
    ++ o.summary.most_forked.toList

/-- Shallow embedding of `compare_repositories` (comparison_tool.py lines
140-409) after the per-target tasks have been gathered: validate the target
count, build the internal `repo_data_list`, the per-metric dicts and the
summary, and return the echoed input targets with the metrics and summary
(lines 305-318). A raised `ValueError` (from validation, or from `min`/`max`
on an empty dict when every target failed) surfaces as `Except.error`; both
are mapped to `McpError` code -32602 by the `except ValueError` handler at
lines 397-406. -/
def compare_repositories (reps : List Target) (metrics : Option (List String))
    (results : List FetchResult) : Except String CompareOutput :=
  match validateTargetCount reps with
  | Except.error e => Except.error e
  | Except.ok _ =>
    let repo_data_list := buildRepoDataList reps results
    let cm := buildComparisonMetrics (metricsToCompare metrics) repo_data_list
    match buildSummary cm with
    | Except.error e => Except.error e
    | Except.ok s => Except.ok ⟨reps, cm, s⟩

/-- Keys of the successfully fetched targets, in input order. -/
def successKeys : List Slot → List String
  | [] => []
  | Slot.data d :: rest => repoKeyOfData d :: successKeys rest
  | Slot.failed _ _ _ :: rest => successKeys rest

/-- Junk default slot for `List.getD`. -/
def slotDefault : Slot := Slot.failed emptyStr emptyStr emptyStr

/-- Junk default target for `List.getD`. -/
def targetDefault : Target := ⟨emptyStr, emptyStr⟩

/-- Sample repository metadata payload for concrete instances. -/
def sampleMetadata : RepoMetadata :=
  { open_issues_count := 5
    stargazers_count := 10
    forks_count := 3
    watchers_count := 4
    language := some ("Python")
    archived := false
    disabled := false
    pushed_at := some 100 }

/-- Concrete metric bag builder for the closed instances below. -/
def mkRepoData (owner repo : String) (stars : Int) (age : Option Int) : RepoData :=
  { owner := owner
    repo := repo
    open_issues_count := 0
    open_prs_count := 0
    stars_count := stars
    forks_count := stars
    watchers_count := 0
    last_commit_date := age
    last_commit_age_days := age
    language := none
    is_archived := false
    is_disabled := false
    pushed_at := none }

/-- Two concrete comparison targets. -/
def c4Targets : List Target := [⟨"alpha", "one"⟩, ⟨"beta", "two"⟩]

/-- Target `alpha/one` with 100 stars whose last commit was today (age 0). -/
def c4Active : RepoData := mkRepoData ("alpha") ("one") 100 (some 0)

/-- Target `alpha/one` with 100 stars and last commit 2 days ago. -/
def c4ActiveScenario : RepoData := mkRepoData ("alpha") ("one") 100 (some 2)

/-- Target `beta/two` with 500 stars and last commit 30 days ago. -/
def c4Stale : RepoData := mkRepoData ("beta") ("two") 500 (some 30)

/-- Three concrete comparison targets. -/
def c3Targets : List Target :=
  [⟨"alpha", "one"⟩, ⟨"beta", "two"⟩, ⟨"gamma", "three"⟩]

/-- Successful metric bag for `beta/two`. -/
def c3DataB : RepoData := mkRepoData ("beta") ("two") 7 (some 4)

/-- Successful metric bag for `gamma/three`. -/
def c3DataC : RepoData := mkRepoData ("gamma") ("three") 9 (some 1)

/-- Gathered results where the first target failed and the other two
succeeded. -/
def c3Results : List FetchResult :=
  [FetchResult.err ("boom"), FetchResult.ok c3DataB, FetchResult.ok c3DataC]

/-- Two concrete comparison targets for the all-failed scenario. -/
def c5Targets : List Target := [⟨"alpha", "one"⟩, ⟨"beta", "two"⟩]

/-- Gathered results where every target failed. -/
def c5Results : List FetchResult :=
  [FetchResult.err ("boom1"), FetchResult.err ("boom2")]

/-- Shifting one exponential-backoff delay onto a delay list. -/
lemma retry_pow_shift (n idx : Nat) :
    RETRY_DELAY_BASE * 2 ^ idx ::
        (List.range n).map (fun i => RETRY_DELAY_BASE * 2 ^ (idx + 1 + i))
      = (List.range (n + 1)).map (fun i => RETRY_DELAY_BASE * 2 ^ (idx + i)) := by
  rw [List.range_succ_eq_map, List.map_cons, List.map_map]
  refine congrArg₂ List.cons ?_ ?_
  · norm_num
  · refine List.map_congr_left fun i _ => ?_
    have h : idx + 1 + i = idx + Nat.succ i := by omega
    simp [Function.comp, h]

/-- If every attempt sees the same retriable status, the loop consumes the
whole budget, sleeps the exponential backoff between consecutive attempts and
ends with the `HTTPStatusError` for that status. -/
lemma retry_all_retriable (v : ServerVariant) (ctx : Bool) {s : Nat}
    (hs : s ∈ RETRYABLE_STATUS_CODES) :
    ∀ results : List UpstreamResult, results ≠ [] →
      (∀ r ∈ results, ∃ rem, r = UpstreamResult.response s rem) →
      ∀ idx : Nat,
      (retry_github_request v ctx idx results).requests = results.length
      ∧ (retry_github_request v ctx idx results).outcome = CallOutcome.httpStatusError s
      ∧ (retry_github_request v ctx idx results).delays
          = (List.range (results.length - 1)).map
              (fun i => RETRY_DELAY_BASE * 2 ^ (idx + i)) := by
  intro results
  induction results with
  | nil => intro h; exact absurd rfl h
  | cons r rest ih =>
    intro _ hall idx
    obtain ⟨rem, hr⟩ := hall r (List.mem_cons_self r rest)
    subst hr
    rcases eq_or_ne rest [] with hrest | hrest
    · subst hrest
      refine ⟨?_, ?_, ?_⟩ <;> simp [retry_github_request, hs]
    · obtain ⟨h1, h2, h3⟩ := ih hrest (fun x hx => hall x (List.mem_cons_of_mem _ hx)) (idx + 1)
      have hlen : rest.length - 1 + 1 = rest.length :=
        Nat.succ_pred_eq_of_pos (List.length_pos.mpr hrest)

      refine ⟨?_, ?_, ?_⟩
      · simp [retry_github_request, hs, hrest, h1]
      · simp [retry_github_request, hs, hrest, h2]
      · have hshift := retry_pow_shift (rest.length - 1) idx
        rw [hlen] at hshift
        have hunf : (retry_github_request v ctx idx (UpstreamResult.response s rem :: rest)).delays
            = RETRY_DELAY_BASE * 2 ^ idx
              :: (retry_github_request v ctx (idx + 1) rest).delays := by
          simp [retry_github_request, hs, hrest]
        rw [hunf, h3, hshift]
        simp

/-- If the attempts before some 2xx answer all see retriable statuses, the
call returns that 2xx response immediately, having issued one request per
preceding attempt plus one, with one backoff delay per preceding attempt. -/
lemma retry_early_success (v : ServerVariant) (ctx : Bool) {ok : Nat}
    (hok1 : 200 ≤ ok) (hok2 : ok < 300) :
    ∀ pre : List UpstreamResult,
      (∀ r ∈ pre, ∃ s rem, r = UpstreamResult.response s rem ∧ s ∈ RETRYABLE_STATUS_CODES) →
      ∀ (rem : Option Nat) (rest : List UpstreamResult) (idx : Nat),
      (retry_github_request v ctx idx
          (pre ++ UpstreamResult.response ok rem :: rest)).requests = pre.length + 1
      ∧ (retry_github_request v ctx idx
          (pre ++ UpstreamResult.response ok rem :: rest)).outcome = CallOutcome.success ok
      ∧ (retry_github_request v ctx idx
          (pre ++ UpstreamResult.response ok rem :: rest)).delays
          = (List.range pre.length).map (fun i => RETRY_DELAY_BASE * 2 ^ (idx + i)) := by
  intro pre
  induction pre with
  | nil =>
    intro _ rem rest idx
    have hnr : ok ∉ RETRYABLE_STATUS_CODES := by
      intro h
      simp only [RETRYABLE_STATUS_CODES, List.mem_cons, List.not_mem_nil, or_false] at h
      omega
    refine ⟨?_, ?_, ?_⟩ <;> simp [retry_github_request, hnr, hok1, hok2]
  | cons r pre ih =>
    intro hall rem rest idx
    obtain ⟨s', rem', hr, hs'⟩ := hall r (List.mem_cons_self r pre)
    subst hr
    have hne : pre ++ UpstreamResult.response ok rem :: rest ≠ [] := by simp
    obtain ⟨h1, h2, h3⟩ := ih (fun x hx => hall x (List.mem_cons_of_mem _ hx)) rem rest (idx + 1)
    refine ⟨?_, ?_, ?_⟩
    · simp [retry_github_request, hs', hne, h1]
    · simp [retry_github_request, hs', hne, h2]
    · have hunf : (retry_github_request v ctx idx
            ((UpstreamResult.response s' rem' :: pre) ++ UpstreamResult.response ok rem :: rest)).delays
          = RETRY_DELAY_BASE * 2 ^ idx
            :: (retry_github_request v ctx (idx + 1)
                (pre ++ UpstreamResult.response ok rem :: rest)).delays := by
        simp [retry_github_request, hs', hne]
      rw [hunf, h3, retry_pow_shift pre.length idx]
      simp

/-- With a nonzero attempt budget the loop never falls through to the
synthesized "All retries exhausted" error: every path returns or raises. -/
lemma retry_ne_exhausted (v : ServerVariant) (ctx : Bool) :
    ∀ results : List UpstreamResult, results ≠ [] → ∀ idx : Nat,
      (retry_github_request v ctx idx results).outcome ≠ CallOutcome.retriesExhausted := by
  intro results
  induction results with
  | nil => intro h; exact absurd rfl h
  | cons r rest ih =>
    intro _ idx
    cases r with
    | netError =>
      rcases eq_or_ne rest [] with hrest | hrest
      · subst hrest; simp [retry_github_request]
      · simpa [retry_github_request, hrest] using ih hrest (idx + 1)
    | response s rem =>
      by_cases hs : s ∈ RETRYABLE_STATUS_CODES
      · rcases eq_or_ne rest [] with hrest | hrest
        · subst hrest; simp [retry_github_request, hs]
        · simpa [retry_github_request, hs, hrest] using ih hrest (idx + 1)
      · by_cases hsucc : 200 ≤ s ∧ s < 300
        · simp [retry_github_request, hs, hsucc]
        · simp [retry_github_request, hs, hsucc]

/-- The observability context changes only the emitted notices, never the
number of requests, the delays or the outcome; without a context no notice is
emitted at all. -/
lemma retry_ctx_agnostic (v : ServerVariant) :
    ∀ (results : List UpstreamResult) (idx : Nat),
      (retry_github_request v true idx results).requests
          = (retry_github_request v false idx results).requests
      ∧ (retry_github_request v true idx results).delays
          = (retry_github_request v false idx results).delays
      ∧ (retry_github_request v true idx results).outcome
          = (retry_github_request v false idx results).outcome
      ∧ (retry_github_request v false idx results).notices = [] := by
  intro results
  induction results with
  | nil => intro idx; simp [retry_github_request]
  | cons r rest ih =>
    intro idx
    have hq : ∀ rem, quotaNotices v false rem = [] := by
      intro rem; cases v <;> cases rem <;> simp [quotaNotices]
    cases r with
    | netError =>
      rcases eq_or_ne rest [] with hrest | hrest
      · subst hrest; simp [retry_github_request]
      · obtain ⟨h1, h2, h3, h4⟩ := ih (idx + 1)
        refine ⟨?_, ?_, ?_, ?_⟩ <;>
          simp [retry_github_request, hrest, h1, h2, h3, h4]
    | response s rem =>
      by_cases hs : s ∈ RETRYABLE_STATUS_CODES
      · rcases eq_or_ne rest [] with hrest | hrest
        · subst hrest
          refine ⟨?_, ?_, ?_, ?_⟩ <;> simp [retry_github_request, hs, hq]
        · obtain ⟨h1, h2, h3, h4⟩ := ih (idx + 1)
          refine ⟨?_, ?_, ?_, ?_⟩ <;>
            simp [retry_github_request, hs, hrest, h1, h2, h3, h4, hq]
      · by_cases hsucc : 200 ≤ s ∧ s < 300
        · refine ⟨?_, ?_, ?_, ?_⟩ <;> simp [retry_github_request, hs, hsucc, hq]
        · refine ⟨?_, ?_, ?_, ?_⟩ <;> simp [retry_github_request, hs, hsucc, hq]

/-- Claim C1: with a budget of `N ≥ 1` attempts and a retriable status on
every attempt, `retry_github_request` issues exactly `N` HTTP requests,
sleeps `RETRY_DELAY_BASE * 2 ^ i` between attempt `i` and `i + 1` for
`i` in `0 .. N - 2`, and surfaces the `HTTPStatusError` for that status;
and whenever the attempts before some 2xx answer are all retriable, that 2xx
response is returned immediately with exactly one backoff delay per
preceding attempt. Holds for both server variants, with or without a
context. -/
theorem retry_budget_and_backoff (v : ServerVariant) (ctx : Bool) (s N : Nat)
    (results : List UpstreamResult) (hs : s ∈ RETRYABLE_STATUS_CODES)
    (hN : 1 ≤ N) (hlen : results.length = N)
    (hall : ∀ r ∈ results, ∃ rem, r = UpstreamResult.response s rem) :
    ((retry_github_request v ctx 0 results).requests = N
     ∧ (retry_github_request v ctx 0 results).outcome = CallOutcome.httpStatusError s
     ∧ (retry_github_request v ctx 0 results).delays
         = (List.range (N - 1)).map (fun i => RETRY_DELAY_BASE * 2 ^ i))
    ∧ ∀ (pre : List UpstreamResult) (ok : Nat) (rem : Option Nat)
        (rest : List UpstreamResult),
        (∀ r ∈ pre, ∃ s' rem', r = UpstreamResult.response s' rem'
            ∧ s' ∈ RETRYABLE_STATUS_CODES) →
        200 ≤ ok → ok < 300 →
        (retry_github_request v ctx 0
            (pre ++ UpstreamResult.response ok rem :: rest)).requests = pre.length + 1
        ∧ (retry_github_request v ctx 0
            (pre ++ UpstreamResult.response ok rem :: rest)).outcome = CallOutcome.success ok
        ∧ (retry_github_request v ctx 0
            (pre ++ UpstreamResult.response ok rem :: rest)).delays
            = (List.range pre.length).map (fun i => RETRY_DELAY_BASE * 2 ^ i) := by
  have hfun : (fun i : Nat => RETRY_DELAY_BASE * 2 ^ (0 + i))
      = fun i : Nat => RETRY_DELAY_BASE * 2 ^ i := by
    funext i; rw [Nat.zero_add]
  constructor
  · have hne : results ≠ [] := by
      intro h
      rw [h] at hlen
      simp at hlen
      omega
    obtain ⟨h1, h2, h3⟩ := retry_all_retriable v ctx hs results hne hall 0
    subst hlen
    exact ⟨h1, h2, by rw [h3, hfun]⟩
  · intro pre ok rem rest hpre hok1 hok2
    obtain ⟨h1, h2, h3⟩ := retry_early_success v ctx hok1 hok2 pre hpre rem rest 0
    exact ⟨h1, h2, by rw [h3, hfun]⟩

/-- Witness for C1: 503 on both attempts of a 2-attempt budget exhausts the
budget with one backoff delay; 503, 503, 200 succeeds on the third attempt
after exactly two backoff delays. -/
theorem retry_budget_and_backoff_witness :
    ((retry_github_request ServerVariant.s1 false 0
        (List.replicate 2 (UpstreamResult.response 503 none))).requests = 2
     ∧ (retry_github_request ServerVariant.s1 false 0
        (List.replicate 2 (UpstreamResult.response 503 none))).outcome
          = CallOutcome.httpStatusError 503
     ∧ (retry_github_request ServerVariant.s1 false 0
        (List.replicate 2 (UpstreamResult.response 503 none))).delays
          = (List.range (2 - 1)).map (fun i => RETRY_DELAY_BASE * 2 ^ i))
    ∧ ((retry_github_request ServerVariant.s1 false 0
        ([UpstreamResult.response 503 none, UpstreamResult.response 503 none]
          ++ UpstreamResult.response 200 none :: [])).requests = 3
       ∧ (retry_github_request ServerVariant.s1 false 0
        ([UpstreamResult.response 503 none, UpstreamResult.response 503 none]
          ++ UpstreamResult.response 200 none :: [])).outcome = CallOutcome.success 200
       ∧ (retry_github_request ServerVariant.s1 false 0
        ([UpstreamResult.response 503 none, UpstreamResult.response 503 none]
          ++ UpstreamResult.response 200 none :: [])).delays
          = (List.range 2).map (fun i => RETRY_DELAY_BASE * 2 ^ i)) := by
  have hmain := retry_budget_and_backoff ServerVariant.s1 false 503 2
    (List.replicate 2 (UpstreamResult.response 503 none)) (by decide) (by decide) (by decide)
    (fun r hr => ⟨none, List.eq_of_mem_replicate hr⟩)
  refine ⟨hmain.1, ?_⟩
  have h2 := hmain.2
    [UpstreamResult.response 503 none, UpstreamResult.response 503 none] 200 none []
    (fun r hr => by
      rcases List.mem_cons.mp hr with h | h
      · exact ⟨503, none, h, by decide⟩
      · rcases List.mem_cons.mp h with h | h
        · exact ⟨503, none, h, by decide⟩
        · exact absurd h (List.not_mem_nil r))
    (by norm_num) (by norm_num)
  exact h2

/-- Claim C2: a non-retriable 4xx status (anything in `[400, 500)` other than
429) terminates the call on the very first attempt with an `HTTPStatusError`,
no backoff delay and no further attempts, regardless of the remaining attempt
budget `rest`. -/
theorem retry_terminal_4xx (v : ServerVariant) (ctx : Bool) (idx s : Nat)
    (rem : Option Nat) (rest : List UpstreamResult)
    (h4 : 400 ≤ s) (h5 : s < 500) (h429 : s ≠ 429) :
    retry_github_request v ctx idx (UpstreamResult.response s rem :: rest)
      = ⟨1, [], quotaNotices v ctx rem, CallOutcome.httpStatusError s⟩ := by
  have hmem : s ∉ RETRYABLE_STATUS_CODES := by
    intro h
    simp only [RETRYABLE_STATUS_CODES, List.mem_cons, List.not_mem_nil, or_false] at h
    omega
  have hsucc : ¬(200 ≤ s ∧ s < 300) := by omega
  simp [retry_github_request, hmem, hsucc]

/-- Witness for C2: a 404 with two attempts still in the budget is terminal
after exactly one request. -/
theorem retry_terminal_4xx_witness :
    retry_github_request ServerVariant.s1 false 0
        (UpstreamResult.response 404 none
          :: [UpstreamResult.response 404 none, UpstreamResult.response 404 none])
      = ⟨1, [], [], CallOutcome.httpStatusError 404⟩ :=
  retry_terminal_4xx ServerVariant.s1 false 0 404 none
    [UpstreamResult.response 404 none, UpstreamResult.response 404 none]
    (by norm_num) (by norm_num) (by decide)

/-- Claim C8: `retry_github_request` always ends in a definite terminal
outcome; the synthesized generic "All retries exhausted" failure occurs
exactly when the loop body never ran (a zero attempt budget, so no exception
was ever captured), in which case the whole trace is the synthesized
failure with zero requests. -/
theorem retry_always_definite_outcome (v : ServerVariant) (ctx : Bool) (idx : Nat)
    (results : List UpstreamResult) :
    ((retry_github_request v ctx idx results).outcome = CallOutcome.retriesExhausted
        ↔ results = [])
    ∧ (results = [] →
        retry_github_request v ctx idx results
          = ⟨0, [], [], CallOutcome.retriesExhausted⟩) := by
  constructor
  · constructor
    · intro h
      by_contra hne
      exact retry_ne_exhausted v ctx results hne idx h
    · intro h; subst h; rfl
  · intro h; subst h; rfl

/-- Witness for C8: an empty budget synthesizes the generic failure; a
nonempty budget never does. -/
theorem retry_always_definite_outcome_witness :
    retry_github_request ServerVariant.s1 true 0 []
        = ⟨0, [], [], CallOutcome.retriesExhausted⟩
    ∧ (retry_github_request ServerVariant.s1 true 0 [UpstreamResult.response 500 none]).outcome
        ≠ CallOutcome.retriesExhausted :=
  ⟨(retry_always_definite_outcome ServerVariant.s1 true 0 []).2 rfl,
   fun h =>
     absurd ((retry_always_definite_outcome ServerVariant.s1 true 0
       [UpstreamResult.response 500 none]).1.mp h) (by decide)⟩

/-- Claim C9: for a fixed sequence of upstream answers the requests issued,
the delays slept and the terminal outcome of `retry_github_request` are
identical with and without an observability context, for both server
variants; without a context no notification is emitted at all, so the
progress/info notifications (including the low-remaining-quota advisory)
never affect control flow or error classification. -/
theorem retry_ctx_independent (v : ServerVariant) (idx : Nat)
    (results : List UpstreamResult) :
    (retry_github_request v true idx results).requests
        = (retry_github_request v false idx results).requests
    ∧ (retry_github_request v true idx results).delays
        = (retry_github_request v false idx results).delays
    ∧ (retry_github_request v true idx results).outcome
        = (retry_github_request v false idx results).outcome
    ∧ (retry_github_request v false idx results).notices = [] :=
  retry_ctx_agnostic v results idx

/-- The slot list has one entry per target. -/
lemma buildRepoDataList_length :
    ∀ (reps : List Target) (results : List FetchResult),
      results.length = reps.length →
      (buildRepoDataList reps results).length = reps.length := by
  intro reps
  induction reps with
  | nil => intro results _; cases results <;> simp [buildRepoDataList]
  | cons t ts ih =>
    intro results hlen
    cases results with
    | nil => simp at hlen
    | cons r rs =>
      simp only [buildRepoDataList, List.length_cons]
      rw [ih rs (by simpa using hlen)]

/-- Slot `i` is the failure marker of target `i` when its task failed, and its
metric bag when it succeeded. -/
lemma buildRepoDataList_getD :
    ∀ (reps : List Target) (results : List FetchResult),
      results.length = reps.length → ∀ i : Nat, i < reps.length →
      (buildRepoDataList reps results).getD i slotDefault =
        (match results.getD i (FetchResult.err emptyStr) with
         | FetchResult.err e =>
             Slot.failed (reps.getD i targetDefault).owner
               (reps.getD i targetDefault).repo e
         | FetchResult.ok d => Slot.data d) := by
  intro reps
  induction reps with
  | nil => intro results _ i hi; simp at hi
  | cons t ts ih =>
    intro results hlen i hi
    cases results with
    | nil => simp at hlen
    | cons r rs =>
      cases i with
      | zero => cases r <;> simp [buildRepoDataList]
      | succ n =>
        have h := ih rs (by simpa using hlen) n (by simpa using hi)
        cases r <;> simpa [buildRepoDataList] using h

/-- A successful gathered result contributes a data slot. -/
lemma data_mem_buildRepoDataList :
    ∀ (reps : List Target) (results : List FetchResult) (d : RepoData),
      results.length = reps.length → FetchResult.ok d ∈ results →
      Slot.data d ∈ buildRepoDataList reps results := by
  intro reps
  induction reps with
  | nil =>
    intro results d hlen hmem
    cases results with
    | nil => simp at hmem
    | cons r rs => simp at hlen
  | cons t ts ih =>
    intro results d hlen hmem
    cases results with
    | nil => simp at hmem
    | cons r rs =>
      rcases List.mem_cons.mp hmem with h | h
      · subst h
        simp [buildRepoDataList]
      · have hmem2 := ih rs d (by simpa using hlen) h
        cases r <;> exact List.mem_cons_of_mem _ hmem2

/-- A key present after a Python dict assignment was either just assigned or
already present. -/
lemma mem_dictInsert :
    ∀ (m : List (String × Int)) (k' : String) (v' : Int) (k : String) (v : Int),
      (k, v) ∈ dictInsert m k' v' → k = k' ∨ ∃ w, (k, w) ∈ m := by
  intro m k' v'
  induction m with
  | nil =>
    intro k v h
    simp [dictInsert] at h
    exact Or.inl h.1
  | cons p rest ih =>
    intro k v h
    obtain ⟨a, b⟩ := p
    simp only [dictInsert] at h
    by_cases hak : a = k'
    · rw [if_pos hak] at h
      rcases List.mem_cons.mp h with h | h
      · exact Or.inl (congrArg Prod.fst h)
      · exact Or.inr ⟨v, List.mem_cons_of_mem _ h⟩
    · rw [if_neg hak] at h
      rcases List.mem_cons.mp h with h | h
      · exact Or.inr ⟨v, by rw [h]; exact List.mem_cons_self _ _⟩
      · rcases ih k v h with h1 | ⟨w, hw⟩
        · exact Or.inl h1
        · exact Or.inr ⟨w, List.mem_cons_of_mem _ hw⟩

/-- A Python dict assignment never empties the dict. -/
lemma dictInsert_ne_nil (m : List (String × Int)) (k : String) (v : Int) :
    dictInsert m k v ≠ [] := by
  cases m with
  | nil => simp [dictInsert]
  | cons p rest =>
    obtain ⟨a, b⟩ := p
    by_cases hak : a = k <;> simp [dictInsert, hak]

/-- The metric-dict loop never empties a nonempty accumulator. -/
lemma buildMetricMapAux_acc_ne_nil (metric : String) :
    ∀ (slots : List Slot) (acc : List (String × Int)), acc ≠ [] →
      buildMetricMapAux metric acc slots ≠ [] := by
  intro slots
  induction slots with
  | nil => intro acc h; simpa [buildMetricMapAux] using h
  | cons s rest ih =>
    intro acc h
    cases s with
    | failed o r e => simpa [buildMetricMapAux] using ih acc h
    | data d =>
      cases hv : metricValue metric d with
      | none => simpa [buildMetricMapAux, hv] using ih acc h
      | some v =>
        simpa [buildMetricMapAux, hv] using
          ih (dictInsert acc (repoKeyOfData d) v) (dictInsert_ne_nil acc _ v)

/-- If some successful slot has a value for the metric, the metric dict is
nonempty. -/
lemma buildMetricMapAux_ne_nil_of_data (metric : String) {d : RepoData} {v : Int}
    (hv : metricValue metric d = some v) :
    ∀ (slots : List Slot) (acc : List (String × Int)), Slot.data d ∈ slots →
      buildMetricMapAux metric acc slots ≠ [] := by
  intro slots
  induction slots with
  | nil => intro acc h; simp at h
  | cons s rest ih =>
    intro acc hmem
    rcases List.mem_cons.mp hmem with h | h
    · subst h
      simp only [buildMetricMapAux, hv]
      exact buildMetricMapAux_acc_ne_nil metric rest _ (dictInsert_ne_nil _ _ _)
    · cases s with
      | failed o r e => simpa [buildMetricMapAux] using ih acc h
      | data d' =>
        cases hv' : metricValue metric d' with
        | none => simpa [buildMetricMapAux, hv'] using ih acc h
        | some v' =>
          simpa [buildMetricMapAux, hv'] using
            ih (dictInsert acc (repoKeyOfData d') v') h

/-- Every key of a metric dict built from an empty accumulator belongs to a
successful slot. -/
lemma mem_buildMetricMapAux (metric : String) :
    ∀ (slots : List Slot) (acc : List (String × Int)) (k : String) (v : Int),
      (k, v) ∈ buildMetricMapAux metric acc slots →
      (∃ w, (k, w) ∈ acc) ∨ k ∈ successKeys slots := by
  intro slots
  induction slots with
  | nil =>
    intro acc k v h
    exact Or.inl ⟨v, by simpa [buildMetricMapAux] using h⟩
  | cons s rest ih =>
    intro acc k v h
    cases s with
    | failed o r e =>
      simp only [buildMetricMapAux] at h
      rcases ih acc k v h with h1 | h1
      · exact Or.inl h1
      · exact Or.inr h1
    | data d =>
      cases hv : metricValue metric d with
      | none =>
        simp only [buildMetricMapAux, hv] at h
        rcases ih acc k v h with h1 | h1
        · exact Or.inl h1
        · exact Or.inr (List.mem_cons_of_mem _ h1)
      | some v' =>
        simp only [buildMetricMapAux, hv] at h
        rcases ih _ k v h with ⟨w, hw⟩ | h1
        · rcases mem_dictInsert acc (repoKeyOfData d) v' k w hw with h2 | ⟨w', hw'⟩
          · subst h2
            exact Or.inr (List.mem_cons_self _ _)
          · exact Or.inl ⟨w', hw'⟩
        · exact Or.inr (List.mem_cons_of_mem _ h1)

/-- Every key of `comparison_metrics[metric]` is the key of a successful
target. -/
lemma mem_buildMetricMap (metric : String) (slots : List Slot) (k : String)
    (v : Int) (h : (k, v) ∈ buildMetricMap metric slots) :
    k ∈ successKeys slots := by
  rcases mem_buildMetricMapAux metric slots [] k v h with ⟨w, hw⟩ | h1
  · simp at hw
  · exact h1

/-- Whatever `comparison_metrics` lookup returns is the dict built for that
metric name. -/
lemma lookupMetric_build (slots : List Slot) :
    ∀ (names : List String) (x : String) (m : List (String × Int)),
      lookupMetric x (buildComparisonMetrics names slots) = some m →
      m = buildMetricMap x slots := by
  intro names
  induction names with
  | nil => intro x m h; simp [buildComparisonMetrics, lookupMetric] at h
  | cons n ns ih =>
    intro x m h
    simp only [buildComparisonMetrics, List.map_cons, lookupMetric] at h
    by_cases hx : n = x
    · subst hx
      rw [if_pos rfl] at h
      injection h with h
      exact h.symm
    · rw [if_neg hx] at h
      exact ih x m (by simpa [buildComparisonMetrics] using h)

/-- A requested metric name is found in `comparison_metrics`. -/
lemma lookupMetric_build_mem (slots : List Slot) :
    ∀ (names : List String) (x : String), x ∈ names →
      lookupMetric x (buildComparisonMetrics names slots)
        = some (buildMetricMap x slots) := by
  intro names
  induction names with
  | nil => intro x h; simp at h
  | cons n ns ih =>
    intro x hx
    simp only [buildComparisonMetrics, List.map_cons, lookupMetric]
    by_cases hnx : n = x
    · rw [if_pos hnx, hnx]
    · rw [if_neg hnx]
      have hxs : x ∈ ns := by
        rcases List.mem_cons.mp hx with h | h
        · exact absurd h.symm hnx
        · exact h
      simpa [buildComparisonMetrics] using ih x hxs

/-- A left fold of `max` yields the seed or a list element. -/
lemma foldl_max_choice : ∀ (l : List Int) (a : Int),
    l.foldl max a = a ∨ l.foldl max a ∈ l := by
  intro l
  induction l with
  | nil => intro a; exact Or.inl rfl
  | cons b l ih =>
    intro a
    rcases ih (max a b) with h | h
    · rcases max_choice a b with hm | hm
      · refine Or.inl ?_
        rw [List.foldl_cons, h, hm]
      · refine Or.inr ?_
        rw [List.foldl_cons, h, hm]
        exact List.mem_cons_self _ _
    · refine Or.inr ?_
      rw [List.foldl_cons]
      exact List.mem_cons_of_mem _ h

/-- A left fold of `min` yields the seed or a list element. -/
lemma foldl_min_choice : ∀ (l : List Int) (a : Int),
    l.foldl min a = a ∨ l.foldl min a ∈ l := by
  intro l
  induction l with
  | nil => intro a; exact Or.inl rfl
  | cons b l ih =>
    intro a
    rcases ih (min a b) with h | h
    · rcases min_choice a b with hm | hm
      · refine Or.inl ?_
        rw [List.foldl_cons, h, hm]
      · refine Or.inr ?_
        rw [List.foldl_cons, h, hm]
        exact List.mem_cons_self _ _
    · refine Or.inr ?_
      rw [List.foldl_cons]
      exact List.mem_cons_of_mem _ h

/-- Python's `max` returns an element of its argument. -/
lemma pyMax_mem : ∀ {l : List Int} {v : Int}, pyMax l = Except.ok v → v ∈ l := by
  intro l v h
  cases l with
  | nil => simp [pyMax] at h
  | cons a l =>
    simp only [pyMax, Except.ok.injEq] at h
    subst h
    rcases foldl_max_choice l a with h | h
    · rw [h]; exact List.mem_cons_self _ _
    · exact List.mem_cons_of_mem _ h

/-- Python's `min` returns an element of its argument. -/
lemma pyMin_mem : ∀ {l : List Int} {v : Int}, pyMin l = Except.ok v → v ∈ l := by
  intro l v h
  cases l with
  | nil => simp [pyMin] at h
  | cons a l =>
    simp only [pyMin, Except.ok.injEq] at h
    subst h
    rcases foldl_min_choice l a with h | h
    · rw [h]; exact List.mem_cons_self _ _
    · exact List.mem_cons_of_mem _ h

/-- If some dict value equals `v`, the first-key comprehension succeeds and
returns a key of the dict. -/
lemma firstWith_of_mem_values :
    ∀ (m : List (String × Int)) (v : Int), v ∈ m.map (fun p => p.2) →
      ∃ k w, firstWith m v = some k ∧ (k, w) ∈ m := by
  intro m v h
  obtain ⟨p, hp, hv⟩ := List.mem_map.mp h
  have hpf : p ∈ m.filter (fun q => q.2 == v) :=
    List.mem_filter.mpr ⟨hp, by simp [hv]⟩
  cases hf : m.filter (fun q => q.2 == v) with
  | nil => rw [hf] at hpf; exact absurd hpf (List.not_mem_nil p)
  | cons q qs =>
    have hq : q ∈ m.filter (fun q => q.2 == v) := by
      rw [hf]; exact List.mem_cons_self _ _
    exact ⟨q.1, q.2, by simp [firstWith, hf], (List.mem_filter.mp hq).1⟩

/-- With a nonempty `last_commit_age` dict, `most_active` is computed without
error and names a key of that dict. -/
lemma summaryMostActive_ok (cm : List (String × List (String × Int)))
    (m : List (String × Int)) (hl : lookupMetric "last_commit_age" cm = some m)
    (hne : m ≠ []) :
    ∃ k w, summaryMostActive cm = Except.ok (some k) ∧ (k, w) ∈ m := by
  obtain ⟨p, ms, hm⟩ := List.exists_cons_of_ne_nil hne
  subst hm
  have hmin : pyMin ((p :: ms).map (fun q => q.2))
      = Except.ok ((ms.map (fun q => q.2)).foldl min p.2) := by
    simp [pyMin]
  have hvmem := pyMin_mem hmin
  obtain ⟨k, w, hfw, hmem⟩ := firstWith_of_mem_values _ _ hvmem
  refine ⟨k, w, ?_, hmem⟩
  simp only [summaryMostActive, hl, hmin]
  simp [hfw]

/-- With a nonempty `stars` dict, `most_popular` is computed without error
and names a key of that dict. -/
lemma summaryMostPopular_ok (cm : List (String × List (String × Int)))
    (m : List (String × Int)) (hl : lookupMetric "stars" cm = some m)
    (hne : m ≠ []) :
    ∃ k w, summaryMostPopular cm = Except.ok (some k) ∧ (k, w) ∈ m := by
  obtain ⟨p, ms, hm⟩ := List.exists_cons_of_ne_nil hne
  subst hm
  have hmax : pyMax ((p :: ms).map (fun q => q.2))
      = Except.ok ((ms.map (fun q => q.2)).foldl max p.2) := by
    simp [pyMax]
  have hvmem := pyMax_mem hmax
  obtain ⟨k, w, hfw, hmem⟩ := firstWith_of_mem_values _ _ hvmem
  refine ⟨k, w, ?_, hmem⟩
  simp only [summaryMostPopular, hl, hmax]
  simp [hfw]

/-- With a nonempty `forks` dict, `most_forked` is computed without error and
names a key of that dict. -/
lemma summaryMostForked_ok (cm : List (String × List (String × Int)))
    (m : List (String × Int)) (hl : lookupMetric "forks" cm = some m)
    (hne : m ≠ []) :
    ∃ k w, summaryMostForked cm = Except.ok (some k) ∧ (k, w) ∈ m := by
  obtain ⟨p, ms, hm⟩ := List.exists_cons_of_ne_nil hne
  subst hm
  have hmax : pyMax ((p :: ms).map (fun q => q.2))
      = Except.ok ((ms.map (fun q => q.2)).foldl max p.2) := by
    simp [pyMax]
  have hvmem := pyMax_mem hmax
  obtain ⟨k, w, hfw, hmem⟩ := firstWith_of_mem_values _ _ hvmem
  refine ⟨k, w, ?_, hmem⟩
  simp only [summaryMostForked, hl, hmax]
  simp [hfw]

/-- The summary succeeds once its three stages succeed. -/
lemma buildSummary_ok (cm : List (String × List (String × Int)))
    (a p f : Option String) (ha : summaryMostActive cm = Except.ok a)
    (hp : summaryMostPopular cm = Except.ok p)
    (hf : summaryMostForked cm = Except.ok f) :
    buildSummary cm = Except.ok ⟨a, p, f⟩ := by
  simp [buildSummary, ha, hp, hf]

/-- Claim C3 counterexample: with target `alpha/one` failed (recorded error
"boom") and `beta/two`, `gamma/three` successful, the aggregate actually
returned by `compare_repositories` carries only the echoed input target list,
the success-only metric dicts and the rankings: the failed target has no entry
in any metric dict and its recorded error occurs nowhere in the returned
value — the error-marked slot exists only in the internal `repo_data_list`,
so the claim as stated (a slot for every target in the returned aggregate,
failed ones marked with their recorded error) is false at this input. -/
theorem compare_error_marker_dropped :
    ∃ out : CompareOutput,
      compare_repositories c3Targets none c3Results = Except.ok out
      ∧ out.repositories = c3Targets
      ∧ lookupMetric "stars" out.metrics
          = some [("beta/two", (7 : Int)), ("gamma/three", 9)]
      ∧ "boom" ∉ outputStrings out
      ∧ (∀ m ∈ out.metrics, ∀ q ∈ m.2, q.1 ≠ "alpha/one") := by
  refine ⟨_, rfl, rfl, ?_, ?_, ?_⟩ <;> decide

/-- Claim C3 as amended: in a valid-size comparison with at least one failed
and at least one successful target, the operation completes; the internal
`repo_data_list` (comparison_tool.py lines 217-229) retains one slot per
target — each failed target marked with its recorded error, each successful
one carrying its metric bag — and the returned aggregate carries the verbatim
echo of the input target list together with metric dicts and rankings
(`most_active`, `most_popular`, `most_forked`) drawn only from the successful
targets; the failed targets' recorded errors stay in the internal slot list
(and the observability channel) and do not reach the returned result. -/
theorem compare_partial_failure_amended (reps : List Target)
    (results : List FetchResult)
    (hlen : results.length = reps.length)
    (h2 : 2 ≤ reps.length) (h5 : reps.length ≤ 5)
    (_hfail : ∃ e, FetchResult.err e ∈ results)
    (hsucc : ∃ d, FetchResult.ok d ∈ results) :
    ((buildRepoDataList reps results).length = reps.length
     ∧ (∀ i : Nat, i < reps.length →
         (buildRepoDataList reps results).getD i slotDefault =
           (match results.getD i (FetchResult.err emptyStr) with
            | FetchResult.err e =>
                Slot.failed (reps.getD i targetDefault).owner
                  (reps.getD i targetDefault).repo e
            | FetchResult.ok d => Slot.data d)))
    ∧ ∃ out : CompareOutput,
        compare_repositories reps none results = Except.ok out
        ∧ out.repositories = reps
        ∧ (∀ (name : String) (m : List (String × Int)) (k : String) (v : Int),
            lookupMetric name out.metrics = some m → (k, v) ∈ m →
            k ∈ successKeys (buildRepoDataList reps results))
        ∧ (∃ ka, out.summary.most_active = some ka
            ∧ ka ∈ successKeys (buildRepoDataList reps results))
        ∧ (∃ kp, out.summary.most_popular = some kp
            ∧ kp ∈ successKeys (buildRepoDataList reps results))
        ∧ (∃ kf, out.summary.most_forked = some kf
            ∧ kf ∈ successKeys (buildRepoDataList reps results)) := by
  obtain ⟨dsucc, hds⟩ := hsucc
  have hdmem : Slot.data dsucc ∈ buildRepoDataList reps results :=
    data_mem_buildRepoDataList reps results dsucc hlen hds
  have hvAge : metricValue "last_commit_age" dsucc
      = some (pythonOr dsucc.last_commit_age_days 9999) := rfl
  have hvStars : metricValue "stars" dsucc = some dsucc.stars_count := rfl
  have hvForks : metricValue "forks" dsucc = some dsucc.forks_count := rfl
  have hlAge := lookupMetric_build_mem (buildRepoDataList reps results)
    (metricsToCompare none) "last_commit_age" (by decide)
  have hlStars := lookupMetric_build_mem (buildRepoDataList reps results)
    (metricsToCompare none) "stars" (by decide)
  have hlForks := lookupMetric_build_mem (buildRepoDataList reps results)
    (metricsToCompare none) "forks" (by decide)
  have hneAge : buildMetricMap "last_commit_age" (buildRepoDataList reps results) ≠ [] :=
    buildMetricMapAux_ne_nil_of_data _ hvAge (buildRepoDataList reps results) [] hdmem
  have hneStars : buildMetricMap "stars" (buildRepoDataList reps results) ≠ [] :=
    buildMetricMapAux_ne_nil_of_data _ hvStars (buildRepoDataList reps results) [] hdmem
  have hneForks : buildMetricMap "forks" (buildRepoDataList reps results) ≠ [] :=
    buildMetricMapAux_ne_nil_of_data _ hvForks (buildRepoDataList reps results) [] hdmem
  obtain ⟨ka, wa, hsa, hma⟩ := summaryMostActive_ok _ _ hlAge hneAge
  obtain ⟨kp, wp, hsp, hmp⟩ := summaryMostPopular_ok _ _ hlStars hneStars
  obtain ⟨kf, wf, hsf, hmf⟩ := summaryMostForked_ok _ _ hlForks hneForks
  have hsummary := buildSummary_ok _ _ _ _ hsa hsp hsf
  have hval : validateTargetCount reps = Except.ok () := by
    simp only [validateTargetCount]
    rw [if_neg (by omega), if_neg (by omega)]
  have hcomp : compare_repositories reps none results
      = Except.ok ⟨reps,
          buildComparisonMetrics (metricsToCompare none) (buildRepoDataList reps results),
          ⟨some ka, some kp, some kf⟩⟩ := by
    simp only [compare_repositories, hval, hsummary]
  refine ⟨⟨buildRepoDataList_length reps results hlen,
      fun i hi => buildRepoDataList_getD reps results hlen i hi⟩,
    _, hcomp, rfl, ?_,
    ⟨ka, rfl, mem_buildMetricMap _ _ ka wa hma⟩,
    ⟨kp, rfl, mem_buildMetricMap _ _ kp wp hmp⟩,
    ⟨kf, rfl, mem_buildMetricMap _ _ kf wf hmf⟩⟩
  intro name m k v hlk hmk
  have hm := lookupMetric_build (buildRepoDataList reps results)
    (metricsToCompare none) name m hlk
  subst hm
  exact mem_buildMetricMap _ _ k v hmk

/-- Witness for the amended C3: with target `alpha/one` failed and `beta/two`,
`gamma/three` successful, the internal slot list has all three slots, the
returned aggregate echoes all three targets and `most_popular` names a
successful target. -/
theorem compare_partial_failure_amended_witness :
    (buildRepoDataList c3Targets c3Results).length = 3
    ∧ ∃ out : CompareOutput,
        compare_repositories c3Targets none c3Results = Except.ok out
        ∧ out.repositories = c3Targets
        ∧ (∃ kp, out.summary.most_popular = some kp
            ∧ kp ∈ successKeys (buildRepoDataList c3Targets c3Results)) := by
  obtain ⟨⟨hl, _⟩, out, h1, h2, _, _, h6, _⟩ :=
    compare_partial_failure_amended c3Targets c3Results (by decide) (by decide)
      (by decide) ⟨"boom", by decide⟩ ⟨c3DataB, by decide⟩
  refine ⟨?_, out, h1, h2, h6⟩
  rw [hl]
  rfl

/-- Claim C4 failing-input evaluation: with `alpha/one` at 100 stars and a
commit today (`last_commit_age_days = 0`) against `beta/two` at 500 stars and
a commit 30 days ago, the code reports `most_active = beta/two` because
`repo_data.get("last_commit_age_days") or 9999` treats the age 0 as falsy and
replaces it with the no-data sentinel 9999 — although `alpha/one` has the
numerically smallest age. With age 2 instead of 0 the claimed behavior holds
(`most_active = alpha/one`, `most_popular = beta/two`). -/
theorem compare_age_zero_divergence :
    (∃ out : CompareOutput,
      compare_repositories c4Targets none
          [FetchResult.ok c4Active, FetchResult.ok c4Stale] = Except.ok out
        ∧ out.summary.most_active = some ("beta/two")
        ∧ out.summary.most_popular = some ("beta/two"))
    ∧ c4Active.last_commit_age_days = some 0
    ∧ c4Stale.last_commit_age_days = some 30
    ∧ (∃ out : CompareOutput,
      compare_repositories c4Targets none
          [FetchResult.ok c4ActiveScenario, FetchResult.ok c4Stale] = Except.ok out
        ∧ out.summary.most_active = some ("alpha/one")
        ∧ out.summary.most_popular = some ("beta/two")) := by
  refine ⟨⟨_, rfl, ?_, ?_⟩, rfl, rfl, ⟨_, rfl, ?_, ?_⟩⟩ <;> decide

/-- Claim C5 failing-input evaluation: when every target failed, the default
metric set leads to `min()` over the empty `last_commit_age` dict, so the
comparison aborts with `ValueError("min() arg is an empty sequence")`
(surfaced as an invalid-params `McpError`) instead of completing with empty
rankings. -/
theorem compare_all_failed_divergence :
    compare_repositories c5Targets none c5Results
      = Except.error ("min() arg is an empty sequence") := rfl

/-- Claim C6: fewer than 2 or more than 5 targets is rejected with the
corresponding validation error, and the result is then independent of
whatever the network would have returned (no network call is consumed);
between 2 and 5 targets the count validation passes. -/
theorem compare_target_count_validation (reps : List Target)
    (metrics : Option (List String)) (res res' : List FetchResult) :
    (reps.length < 2 →
      compare_repositories reps metrics res
          = Except.error ("Необходимо указать минимум 2 репозитория для сравнения")
      ∧ compare_repositories reps metrics res = compare_repositories reps metrics res')
    ∧ (5 < reps.length →
      compare_repositories reps metrics res
          = Except.error ("Максимум 5 репозиториев для сравнения")
      ∧ compare_repositories reps metrics res = compare_repositories reps metrics res')
    ∧ (2 ≤ reps.length → reps.length ≤ 5 →
        validateTargetCount reps = Except.ok ()) := by
  refine ⟨?_, ?_, ?_⟩
  · intro h
    have hv : validateTargetCount reps
        = Except.error ("Необходимо указать минимум 2 репозитория для сравнения") := by
      simp only [validateTargetCount]
      rw [if_pos h]
    constructor <;> simp [compare_repositories, hv]
  · intro h
    have hv : validateTargetCount reps
        = Except.error ("Максимум 5 репозиториев для сравнения") := by
      simp only [validateTargetCount]
      rw [if_neg (by omega), if_pos (by omega)]
    constructor <;> simp [compare_repositories, hv]
  · intro h2 h5
    simp only [validateTargetCount]
    rw [if_neg (by omega), if_neg (by omega)]

/-- Witness for C6: one target and six targets are rejected with the
respective validation errors; two targets pass the count validation. -/
theorem compare_target_count_validation_witness :
    compare_repositories [targetDefault] none []
        = Except.error ("Необходимо указать минимум 2 репозитория для сравнения")
    ∧ compare_repositories (List.replicate 6 targetDefault) none []
        = Except.error ("Максимум 5 репозиториев для сравнения")
    ∧ validateTargetCount [targetDefault, targetDefault] = Except.ok () :=
  ⟨((compare_target_count_validation [targetDefault] none [] []).1 (by decide)).1,
   ((compare_target_count_validation (List.replicate 6 targetDefault) none [] []).2.1
      (by decide)).1,
   (compare_target_count_validation [targetDefault, targetDefault] none [] []).2.2
      (by decide) (by decide)⟩

/-- Claim C10: `fetch_repository_data` fails exactly when the main
repository-metadata call fails; an exception in the open-PR search sub-call is
swallowed and yields `open_prs_count = 0`, and an exception in the
latest-commit sub-call is swallowed and yields `last_commit_date = None`,
hence `last_commit_age_days = None` — the target is still reported as
successful. -/
theorem fetch_subcall_error_containment (now : Int) (owner repo : String)
    (metaCall : SubCall RepoMetadata) (searchPrCall : SubCall Int)
    (commitsCall : SubCall (Option Int)) :
    (∀ e, fetch_repository_data now owner repo metaCall searchPrCall commitsCall
        = Except.error e ↔ metaCall = SubCall.exn e)
    ∧ (∀ md, metaCall = SubCall.ok md →
        ∃ d, fetch_repository_data now owner repo metaCall searchPrCall commitsCall
              = Except.ok d
          ∧ (∀ e, searchPrCall = SubCall.exn e → d.open_prs_count = 0)
          ∧ (∀ e, commitsCall = SubCall.exn e →
              d.last_commit_date = none ∧ d.last_commit_age_days = none)) := by
  constructor
  · intro e
    cases metaCall with
    | exn e' => simp [fetch_repository_data]
    | ok md => simp [fetch_repository_data]
  · intro md hmeta
    subst hmeta
    refine ⟨_, rfl, ?_, ?_⟩
    · intro e hpr
      subst hpr
      rfl
    · intro e hc
      subst hc
      exact ⟨rfl, rfl⟩

/-- Witness for C10: with sound metadata but raising PR-search and commit
sub-calls, the fetch still succeeds with zeroed PR count and no commit age. -/
theorem fetch_subcall_error_containment_witness :
    ∃ d : RepoData,
      fetch_repository_data 0 ("alpha") ("one") (SubCall.ok sampleMetadata)
          (SubCall.exn ("pr boom")) (SubCall.exn ("commit boom")) = Except.ok d
      ∧ d.open_prs_count = 0 ∧ d.last_commit_age_days = none := by
  obtain ⟨d, hd, hpr, hc⟩ :=
    (fetch_subcall_error_containment 0 ("alpha") ("one") (SubCall.ok sampleMetadata)
      (SubCall.exn ("pr boom")) (SubCall.exn ("commit boom"))).2 sampleMetadata rfl
  exact ⟨d, hd, hpr _ rfl, (hc _ rfl).2⟩

end GithubMcp
